import Mathlib

/-!
# Verification of the midi-presets checksum and validation subsystems

Shallow embedding of `src/midi_presets` (checksum calculator, manifest
generator, validators, validation CLI).  Files are modelled as lists of
entries `(relative path segments, byte content)`; the filesystem
enumeration order (`Path.rglob`) is the order of the list.  SHA-256 is
modelled by `hashBytes`, a fixed deterministic function of the byte
stream fed through `update`; every theorem below depends only on *which*
bytes are fed *in which order*, never on properties of the compression
function itself.  Strings are hashed via their code points (all data
involved is ASCII, where code points and UTF-8 bytes agree).
-/

namespace MidiPresets

/-- A byte fed to a hash context. -/
abbrev Byte := Nat

/-- Stand-in for `hashlib.sha256(...).digest()`: a fixed deterministic
function of the whole byte stream (FNV-style fold reduced mod 2^256). -/
def hashBytes (l : List Byte) : Nat :=
  l.foldl (fun h b => (h * 16777619 + b % 256) % (2 ^ 256)) 2166136261

/-- Lowercase-hex rendering of a digest, padded to 64 characters; models
`sha256.hexdigest()`. -/
def hexDigest (n : Nat) : String :=
  let ds := Nat.toDigits 16 n
  String.mk (List.replicate (64 - ds.length) '0' ++ ds)

/-- Models `str.encode()` for the ASCII strings fed into hash contexts. -/
def strBytes (s : String) : List Byte := s.toList.map Char.toNat

/-- One file of the artifact tree: path segments relative to the folder
being processed, and the file's byte content. -/
structure FileEntry where
  relPath : List String
  content : List Byte
deriving DecidableEq, Repr

/-- `Path.name`: the last path segment. -/
def fileName (e : FileEntry) : String := e.relPath.getLast? |>.getD ""

/-- `str(relative_path)`: segments joined with "/". -/
def relStr (e : FileEntry) : String := String.intercalate "/" e.relPath

/-- Whether a name matches the glob `*.json` (as in `rglob("*.json")`). -/
def isJsonName (s : String) : Bool := ".json".toList.isSuffixOf s.toList

/-- `any(pattern in f.name for pattern in exclude_patterns)`: substring
containment of an exclude pattern in the file name. -/
def excludedBy (patterns : List String) (e : FileEntry) : Bool :=
  patterns.any (fun pat => decide (List.IsInfix pat.toList (fileName e).toList))

/-- The default exclude patterns of `calculate_folder_hash`. -/
def defaultExcludePatterns : List String := ["_manifest.json"]

/-- Key order used when the calculator sorts the matching files
(`sorted([...])` over paths sharing the folder prefix), as lexicographic
order on the characters of the relative path. -/
def pathLe (a b : FileEntry) : Prop := (relStr a).toList ≤ (relStr b).toList

instance : DecidableRel pathLe := fun a b => by
  unfold pathLe; infer_instance

instance : IsTotal FileEntry pathLe :=
  ⟨fun a b => le_total (relStr a).toList (relStr b).toList⟩

instance : IsTrans FileEntry pathLe :=
  ⟨fun _ _ _ h₁ h₂ => le_trans h₁ h₂⟩

/-- Lexicographic name order used when sorting folder names. -/
def nameLe (a b : String) : Prop := a.toList ≤ b.toList

instance : DecidableRel nameLe := fun a b => by
  unfold nameLe; infer_instance

instance : IsTotal String nameLe :=
  ⟨fun a b => le_total a.toList b.toList⟩

instance : IsTrans String nameLe :=
  ⟨fun _ _ _ h₁ h₂ => le_trans h₁ h₂⟩

/-- The file selection of `calculate_folder_hash`: the `*.json` files not
hit by an exclude pattern, sorted by relative path. -/
def folderJsonFiles (exclude : List String) (files : List FileEntry) :
    List FileEntry :=
  List.insertionSort pathLe
    (files.filter (fun e => isJsonName (fileName e) && !excludedBy exclude e))

/-- The byte transcript fed to the folder hash context: for every selected
file in sorted order, the UTF-8 bytes of its relative path followed by the
bytes of its content digest's hex rendering
(`sha256_hash.update(str(relative_path).encode())` then
`sha256_hash.update(file_hash.encode())`). -/
def folderHashTranscript (exclude : List String) (files : List FileEntry) :
    List Byte :=
  (folderJsonFiles exclude files).foldl
    (fun acc e => acc ++ strBytes (relStr e) ++
      strBytes (hexDigest (hashBytes e.content))) []

/-- `ChecksumCalculator.calculate_folder_hash`: digest of the transcript.
`files` is the filesystem's enumeration (in enumeration order) of the
files under the folder. -/
def calculate_folder_hash (files : List FileEntry)
    (exclude : List String := defaultExcludePatterns) : String :=
  hexDigest (hashBytes (folderHashTranscript exclude files))

/-- The file selection of `ManifestGenerator.generate_manifest`
(`rglob("*.json")` filtered by `f.name != "_manifest.json"`), kept in
filesystem enumeration order — the generator does not sort. -/
def manifestGeneratorEnum (files : List FileEntry) : List FileEntry :=
  files.filter (fun e => isJsonName (fileName e) && fileName e != "_manifest.json")

/-- The immediate-subdirectory selection of
`ChecksumCalculator.calculate_repository_hash`: names of directories
directly under the artifact root (`iterdir`) holding at least one
`*.json` file at any depth (`any(f.rglob("*.json"))`, no exclusion),
sorted.  A root entry with path `s :: rest`, `rest ≠ []`, witnesses both
that `s` is a directory and, when its name matches, that `s` holds a
JSON file. -/
def deviceFolderNames (files : List FileEntry) : List String :=
  List.insertionSort nameLe
    ((files.filter (fun e => decide (2 ≤ e.relPath.length) && isJsonName (fileName e))).filterMap
      (fun e => e.relPath.head?)).dedup

/-- The files of the subtree rooted at immediate subdirectory `s`, with
paths re-rooted at `s` (`file.relative_to(folder)`). -/
def filesUnder (s : String) (files : List FileEntry) : List FileEntry :=
  files.filterMap (fun e =>
    match e.relPath with
    | x :: y :: rest => if x = s then some ⟨y :: rest, e.content⟩ else none
    | _ => none)

/-- The byte transcript of the repository hash context: for each selected
device folder in sorted order, the bytes of
`f"{relative_path}:{folder_hash}"`. -/
def repositoryHashTranscript (files : List FileEntry) : List Byte :=
  (deviceFolderNames files).foldl
    (fun acc s => acc ++
      strBytes (s ++ ":" ++ calculate_folder_hash (filesUnder s files))) []

/-- `ChecksumCalculator.calculate_repository_hash`. -/
def calculate_repository_hash (files : List FileEntry) : String :=
  hexDigest (hashBytes (repositoryHashTranscript files))

/-- Modelled from the spec wording of C5 ("the device folders ... that are
directories at any depth under the root containing at least one matching
JSON file, sorted by name"): every proper prefix of a JSON file's path is
such a directory.  This definition exists only to be compared with the
source-derived `deviceFolderNames`. -/
def claimRepositoryFolders (files : List FileEntry) : List String :=
  List.insertionSort nameLe
    (((files.filter (fun e => isJsonName (fileName e))).flatMap
      (fun e => (List.range (e.relPath.length - 1)).map
        (fun k => String.intercalate "/" (e.relPath.take (k + 1))))).dedup)

/-- A list sorted by a key, whose keys are pairwise distinct, is uniquely
determined by its multiset of elements. -/
theorem sorted_unique_of_nodup_keys {α K : Type} [LinearOrder K] (key : α → K) :
    ∀ (l₁ l₂ : List α), l₁.Perm l₂ →
      l₁.Sorted (fun a b => key a ≤ key b) →
      l₂.Sorted (fun a b => key a ≤ key b) →
      (l₁.map key).Nodup → l₁ = l₂ := by
  intro l₁
  induction l₁ with
  | nil =>
    intro l₂ hp _ _ _
    exact (hp.nil_eq).symm ▸ rfl
  | cons a t₁ ih =>
    intro l₂ hp hs₁ hs₂ hn
    cases l₂ with
    | nil => exact absurd hp.symm.nil_eq (by simp)
    | cons b t₂ =>
      have hab : a = b := by
        by_contra hne
        have ha2 : a ∈ t₂ := by
          have : a ∈ b :: t₂ := hp.mem_iff.mp (List.mem_cons_self a t₁)
          rcases List.mem_cons.mp this with h | h
          · exact absurd h hne
          · exact h
        have hb1 : b ∈ t₁ := by
          have : b ∈ a :: t₁ := hp.symm.mem_iff.mp (List.mem_cons_self b t₂)
          rcases List.mem_cons.mp this with h | h
          · exact absurd h.symm hne
          · exact h
        have h₁ : key a ≤ key b := (List.sorted_cons.mp hs₁).1 b hb1
        have h₂ : key b ≤ key a := (List.sorted_cons.mp hs₂).1 a ha2
        have hkey : key a = key b := le_antisymm h₁ h₂
        have : key a ∉ (t₁.map key) := (List.nodup_cons.mp (by simpa using hn)).1
        exact this (hkey ▸ List.mem_map_of_mem key hb1)
      subst hab
      have hp' : t₁.Perm t₂ := hp.cons_inv
      have := ih t₂ hp' (List.sorted_cons.mp hs₁).2 (List.sorted_cons.mp hs₂).2
        (List.nodup_cons.mp (by simpa using hn)).2
      rw [this]

/-- C1. For every folder, the folder digest is a function only of the set
of (relative path, content) pairs of its files: if two filesystem
enumerations of a folder (lists of files with pairwise-distinct relative
paths) are permutations of each other, `calculate_folder_hash` yields the
same digest, because the matching files are sorted by relative path
before folding. -/
theorem calculate_folder_hash_deterministic
    (exclude : List String) (files₁ files₂ : List FileEntry)
    (hperm : files₁.Perm files₂)
    (hnodup : (files₁.map relStr).Nodup) :
    calculate_folder_hash files₁ exclude = calculate_folder_hash files₂ exclude := by
  suffices h : folderJsonFiles exclude files₁ = folderJsonFiles exclude files₂ by
    unfold calculate_folder_hash folderHashTranscript
    rw [h]
  unfold folderJsonFiles
  set p := fun e => isJsonName (fileName e) && !excludedBy exclude e with hpdef
  have hpf : (files₁.filter p).Perm (files₂.filter p) := hperm.filter p
  have hs₁ := List.sorted_insertionSort pathLe (files₁.filter p)
  have hs₂ := List.sorted_insertionSort pathLe (files₂.filter p)
  have hperm' : (List.insertionSort pathLe (files₁.filter p)).Perm
      (List.insertionSort pathLe (files₂.filter p)) :=
    ((List.perm_insertionSort pathLe (files₁.filter p)).trans hpf).trans
      (List.perm_insertionSort pathLe (files₂.filter p)).symm
  have hnod : ((List.insertionSort pathLe (files₁.filter p)).map
      (fun e => (relStr e).toList)).Nodup := by
    have h₀ : (files₁.map (fun e => (relStr e).toList)).Nodup := by
      have : files₁.map (fun e => (relStr e).toList) =
          (files₁.map relStr).map String.toList := by
        rw [List.map_map]; rfl
      rw [this]
      exact hnodup.map (fun _ _ h => String.toList_inj.mp h)
    have h₁ : ((files₁.filter p).map (fun e => (relStr e).toList)).Sublist
        (files₁.map (fun e => (relStr e).toList)) :=
      (List.filter_sublist files₁).map _
    have h₂ := h₁.nodup h₀
    exact (((List.perm_insertionSort pathLe (files₁.filter p)).map
      (fun e => (relStr e).toList)).nodup_iff).mpr h₂
  exact sorted_unique_of_nodup_keys (fun e => (relStr e).toList) _ _ hperm' hs₁ hs₂ hnod

/-- Witness for C1 at a concrete two-file folder enumerated in both orders. -/
theorem calculate_folder_hash_deterministic_witness :
    calculate_folder_hash
        [⟨["b.json"], [1, 2]⟩, ⟨["sub", "a.json"], [3]⟩] defaultExcludePatterns =
      calculate_folder_hash
        [⟨["sub", "a.json"], [3]⟩, ⟨["b.json"], [1, 2]⟩] defaultExcludePatterns :=
  calculate_folder_hash_deterministic defaultExcludePatterns _ _
    (List.Perm.swap _ _ _) (by decide)

/-- C4 (code bug). The checksum calculator and the manifest generator do
not enumerate files by the identical rule: on a folder holding
`b.json`, `dev/a_manifest.json`, `a.json` (in that enumeration order),
the generator keeps `dev/a_manifest.json` (it only drops names equal to
`"_manifest.json"`) while the calculator excludes it (substring match
against the exclude pattern); moreover the generator's visit order is the
filesystem enumeration order, not sorted relative-path order. -/
theorem enumeration_rules_diverge :
    manifestGeneratorEnum
        [⟨["b.json"], [1]⟩, ⟨["dev", "a_manifest.json"], [2]⟩, ⟨["a.json"], [3]⟩] ≠
      folderJsonFiles defaultExcludePatterns
        [⟨["b.json"], [1]⟩, ⟨["dev", "a_manifest.json"], [2]⟩, ⟨["a.json"], [3]⟩]
    ∧ (⟨["dev", "a_manifest.json"], [2]⟩ : FileEntry) ∈ manifestGeneratorEnum
        [⟨["b.json"], [1]⟩, ⟨["dev", "a_manifest.json"], [2]⟩, ⟨["a.json"], [3]⟩]
    ∧ (⟨["dev", "a_manifest.json"], [2]⟩ : FileEntry) ∉ folderJsonFiles defaultExcludePatterns
        [⟨["b.json"], [1]⟩, ⟨["dev", "a_manifest.json"], [2]⟩, ⟨["a.json"], [3]⟩]
    ∧ manifestGeneratorEnum
        [⟨["b.json"], [1]⟩, ⟨["dev", "a_manifest.json"], [2]⟩, ⟨["a.json"], [3]⟩] ≠
      List.insertionSort pathLe (manifestGeneratorEnum
        [⟨["b.json"], [1]⟩, ⟨["dev", "a_manifest.json"], [2]⟩, ⟨["a.json"], [3]⟩]) := by
  refine ⟨by decide, by decide, by decide, by decide⟩

/-- C5 counterexample. On the tree holding the single file
`a/b/c.json`, the claim's folder set ("directories at any depth under the
root containing at least one matching JSON file") is `["a", "a/b"]`, but
`calculate_repository_hash` folds only over the immediate subdirectories
of the root, here `["a"]`. -/
theorem repository_folders_not_any_depth :
    deviceFolderNames [⟨["a", "b", "c.json"], [1]⟩] = ["a"]
    ∧ claimRepositoryFolders [⟨["a", "b", "c.json"], [1]⟩] = ["a", "a/b"]
    ∧ deviceFolderNames [⟨["a", "b", "c.json"], [1]⟩] ≠
        claimRepositoryFolders [⟨["a", "b", "c.json"], [1]⟩] := by
  refine ⟨by decide, by decide, by decide⟩

/-- C5 amended. `calculate_repository_hash` folds over exactly the
immediate subdirectories of the root that contain at least one `*.json`
file at any depth, sorted by name and without duplicates, folding the
bytes of `relativeFolderPath + ":" + folderDigest` for each into one
running hash context in sorted order. -/
theorem calculate_repository_hash_spec (files : List FileEntry) :
    (∀ s, s ∈ deviceFolderNames files ↔
      ∃ e ∈ files, ∃ rest, e.relPath = s :: rest ∧ rest ≠ [] ∧
        isJsonName (fileName e) = true)
    ∧ (deviceFolderNames files).Sorted nameLe
    ∧ (deviceFolderNames files).Nodup
    ∧ calculate_repository_hash files =
        hexDigest (hashBytes ((deviceFolderNames files).foldl
          (fun acc s => acc ++
            strBytes (s ++ ":" ++ calculate_folder_hash (filesUnder s files))) [])) := by
  refine ⟨?_, ?_, ?_, rfl⟩
  · intro s
    unfold deviceFolderNames
    rw [(List.perm_insertionSort _ _).mem_iff, List.mem_dedup, List.mem_filterMap]
    constructor
    · rintro ⟨e, he, hh⟩
      rw [List.mem_filter] at he
      obtain ⟨hmem, hcond⟩ := he
      simp only [Bool.and_eq_true, decide_eq_true_eq] at hcond
      obtain ⟨hlen, hjson⟩ := hcond
      match hrp : e.relPath with
      | [] => rw [hrp] at hh; simp at hh
      | x :: rest =>
        rw [hrp] at hh
        simp only [List.head?] at hh
        refine ⟨e, hmem, rest, ?_, ?_, hjson⟩
        · rw [hrp]; injection hh with h; rw [h]
        · intro hne
          rw [hrp, hne] at hlen
          simp at hlen
    · rintro ⟨e, he, rest, hrp, hrest, hjson⟩
      refine ⟨e, ?_, ?_⟩
      · rw [List.mem_filter]
        refine ⟨he, ?_⟩
        simp only [Bool.and_eq_true, decide_eq_true_eq]
        refine ⟨?_, hjson⟩
        rw [hrp]
        match rest, hrest with
        | r :: rs, _ => simp
      · rw [hrp]; rfl
  · exact List.sorted_insertionSort _ _
  · exact ((List.perm_insertionSort _ _).nodup_iff).mpr (List.nodup_dedup _)

/-! ## File-level hashing and its failure mode (`calculate_file_hash`) -/

/-- A Python exception relevant to the checksum calculator:
`IOError`/`OSError` versus `ValueError`. -/
inductive PyError where
  | ioError (msg : String)
  | valueError (msg : String)
deriving DecidableEq, Repr

/-- Whether a result is a raised `IOError`. -/
def raisedIOError (r : Except PyError String) : Bool :=
  match r with
  | .error (.ioError _) => true
  | _ => false

/-- A filesystem for single-file operations: relative path string to byte
content.  A path absent from the map cannot be read (missing or
unreadable), making `open` raise. -/
abbrev FS := List (String × List Byte)

/-- Reading a file: the content at the first matching path, if any. -/
def readFile (fs : FS) (p : String) : Option (List Byte) :=
  (fs.find? (fun pr => pr.1 == p)).map Prod.snd

/-- The message of the OS-level exception raised by a failed `open`
(its exact text is environment-dependent; only its presence matters). -/
def osErrorMsg (p : String) : String := "unable to open " ++ p

/-- `ChecksumCalculator.calculate_file_hash`: streams the file through the
hash; any exception is caught and re-raised as
`ValueError(f"Error calculating hash for {file_path}: {e}")`. -/
def calculate_file_hash (fs : FS) (p : String) : Except PyError String :=
  match readFile fs p with
  | some content => .ok (hexDigest (hashBytes content))
  | none => .error (.valueError
      ("Error calculating hash for " ++ p ++ ": " ++ osErrorMsg p))

/-- C8 counterexample. On the unreadable path `devices/x.json`,
`calculate_file_hash` raises a `ValueError`, not an `IOError`: the claim
that a read failure raises an `IOError` fails at this input. -/
theorem file_hash_failure_not_ioerror :
    calculate_file_hash [] "devices/x.json" =
      .error (.valueError
        "Error calculating hash for devices/x.json: unable to open devices/x.json")
    ∧ raisedIOError (calculate_file_hash [] "devices/x.json") = false := by
  refine ⟨rfl, rfl⟩

/-- C8 amended. For every path whose underlying file cannot be read,
`calculate_file_hash` fails by raising a `ValueError` whose message wraps
the causing path; it never returns a digest on a read failure. -/
theorem file_hash_failure_wraps_path (fs : FS) (p : String)
    (h : readFile fs p = none) :
    calculate_file_hash fs p =
      .error (.valueError
        ("Error calculating hash for " ++ p ++ ": " ++ osErrorMsg p)) := by
  unfold calculate_file_hash
  rw [h]

/-- Witness for C8 amended at the empty filesystem. -/
theorem file_hash_failure_wraps_path_witness :
    readFile [] "devices/d/a.json" = none ∧
      calculate_file_hash [] "devices/d/a.json" =
        .error (.valueError
          ("Error calculating hash for devices/d/a.json: " ++
            osErrorMsg "devices/d/a.json")) :=
  ⟨rfl, file_hash_failure_wraps_path [] "devices/d/a.json" rfl⟩

/-! ## Manifest verification (`ManifestGenerator.verify_manifest`) -/

/-- The counters accumulated by the verification loop
(`files_verified`, `files_failed`, `missing_files`). -/
structure VerifyCounts where
  verified : Nat
  failed : Nat
  missing : Nat
deriving DecidableEq, Repr

/-- The current file at a stored relative path
(`self.devices_folder / file_path`, which `exists()` and is then hashed). -/
def fileAt (fs : List FileEntry) (p : String) : Option FileEntry :=
  fs.find? (fun e => relStr e == p)

/-- One iteration of the verification loop over a stored
`(path, sha256)` pair: a missing file increments `missing_files` and the
loop continues; otherwise the live digest is recomputed and compared
(`verify_file_hash`), incrementing `files_verified` or `files_failed`. -/
def verifyStep (fs : List FileEntry) (c : VerifyCounts) (pr : String × String) :
    VerifyCounts :=
  match fileAt fs pr.1 with
  | none => { c with missing := c.missing + 1 }
  | some e =>
    if hexDigest (hashBytes e.content) == pr.2 then
      { c with verified := c.verified + 1 }
    else
      { c with failed := c.failed + 1 }

/-- The verification loop over all stored checksum entries. -/
def verifyLoop (stored : List (String × String)) (fs : List FileEntry) :
    VerifyCounts :=
  stored.foldl (verifyStep fs) ⟨0, 0, 0⟩

/-- The set of relative paths of `*.json` files currently present, except
the manifest file itself (`f.name != "_manifest.json"`). -/
def currentJsonPaths (fs : List FileEntry) : List String :=
  ((fs.filter (fun e =>
    isJsonName (fileName e) && fileName e != "_manifest.json")).map relStr).dedup

/-- The extra files: current JSON paths absent from the stored manifest. -/
def extraFiles (stored : List (String × String)) (fs : List FileEntry) :
    List String :=
  (currentJsonPaths fs).filter (fun p => !(stored.any (fun pr => pr.1 == p)))

/-- `ManifestGenerator.verify_manifest` on a loaded manifest: true iff
`files_failed`, `missing_files` and `extra_files` are all zero. -/
def verify_manifest (stored : List (String × String)) (fs : List FileEntry) :
    Bool :=
  let c := verifyLoop stored fs
  c.failed == 0 && c.missing == 0 && (extraFiles stored fs).length == 0

/-- Loop-side classification of a stored entry: referenced but absent. -/
def storedMissing (fs : List FileEntry) (pr : String × String) : Bool :=
  (fileAt fs pr.1).isNone

/-- Loop-side classification of a stored entry: present with a digest
mismatch. -/
def storedFailed (fs : List FileEntry) (pr : String × String) : Bool :=
  match fileAt fs pr.1 with
  | some e => hexDigest (hashBytes e.content) != pr.2
  | none => false

/-- Loop-side classification of a stored entry: present and matching. -/
def storedVerified (fs : List FileEntry) (pr : String × String) : Bool :=
  match fileAt fs pr.1 with
  | some e => hexDigest (hashBytes e.content) == pr.2
  | none => false

/-- The verification loop computes exactly the three classification
counters. -/
theorem verifyLoop_counts (fs : List FileEntry) :
    ∀ (stored : List (String × String)) (c : VerifyCounts),
      stored.foldl (verifyStep fs) c =
        ⟨c.verified + (stored.filter (storedVerified fs)).length,
         c.failed + (stored.filter (storedFailed fs)).length,
         c.missing + (stored.filter (storedMissing fs)).length⟩ := by
  intro stored
  induction stored with
  | nil => intro c; simp
  | cons pr rest ih =>
    intro c
    rw [List.foldl_cons]
    match h : fileAt fs pr.1 with
    | none =>
      have hm : storedMissing fs pr = true := by unfold storedMissing; rw [h]; rfl
      have hf : storedFailed fs pr = false := by unfold storedFailed; rw [h]
      have hv : storedVerified fs pr = false := by unfold storedVerified; rw [h]
      have hstep : verifyStep fs c pr = { c with missing := c.missing + 1 } := by
        unfold verifyStep; rw [h]
      have hf' : ¬ storedFailed fs pr = true := by simp [hf]
      have hv' : ¬ storedVerified fs pr = true := by simp [hv]
      rw [hstep, ih, List.filter_cons_of_pos hm, List.filter_cons_of_neg hf',
        List.filter_cons_of_neg hv']
      simp only [List.length_cons, VerifyCounts.mk.injEq, eq_self_iff_true, true_and,
        and_true]
      omega
    | some e =>
      by_cases hh : hexDigest (hashBytes e.content) = pr.2
      · have hm : storedMissing fs pr = false := by unfold storedMissing; rw [h]; rfl
        have hf : storedFailed fs pr = false := by
          unfold storedFailed; rw [h]; simp [bne, hh]
        have hv : storedVerified fs pr = true := by
          unfold storedVerified; rw [h]; simp [hh]
        have hstep : verifyStep fs c pr = { c with verified := c.verified + 1 } := by
          unfold verifyStep; rw [h]; simp [hh]
        have hf' : ¬ storedFailed fs pr = true := by simp [hf]
        have hm' : ¬ storedMissing fs pr = true := by simp [hm]
        rw [hstep, ih, List.filter_cons_of_pos hv, List.filter_cons_of_neg hf',
          List.filter_cons_of_neg hm']
        simp only [List.length_cons, VerifyCounts.mk.injEq, eq_self_iff_true, true_and,
          and_true]
        omega
      · have hm : storedMissing fs pr = false := by unfold storedMissing; rw [h]; rfl
        have hf : storedFailed fs pr = true := by
          unfold storedFailed; rw [h]; simp [bne, hh]
        have hv : storedVerified fs pr = false := by
          unfold storedVerified; rw [h]; simp [hh]
        have hstep : verifyStep fs c pr = { c with failed := c.failed + 1 } := by
          unfold verifyStep; rw [h]; simp [hh]
        have hv' : ¬ storedVerified fs pr = true := by simp [hv]
        have hm' : ¬ storedMissing fs pr = true := by simp [hm]
        rw [hstep, ih, List.filter_cons_of_pos hf, List.filter_cons_of_neg hv',
          List.filter_cons_of_neg hm']
        simp only [List.length_cons, VerifyCounts.mk.injEq, eq_self_iff_true, true_and,
          and_true]
        omega

/-- A stored entry counts as missing exactly when no current file has its
path. -/
theorem storedMissing_iff (fs : List FileEntry) (pr : String × String) :
    storedMissing fs pr = decide (∀ e ∈ fs, relStr e ≠ pr.1) := by
  unfold storedMissing fileAt
  by_cases hc : ∀ e ∈ fs, relStr e ≠ pr.1
  · have hnone : fs.find? (fun e => relStr e == pr.1) = none :=
      List.find?_eq_none.mpr (fun e he => by simp [hc e he])
    rw [hnone]
    simp only [Option.isNone_none]
    exact (decide_eq_true hc).symm
  · have hex : ∃ e ∈ fs, (fun e => relStr e == pr.1) e = true := by
      push_neg at hc
      obtain ⟨e, he, heq⟩ := hc
      exact ⟨e, he, by simp [heq]⟩
    have hsome : (fs.find? (fun e => relStr e == pr.1)).isSome :=
      List.find?_isSome.mpr hex
    rcases hfind : fs.find? (fun e => relStr e == pr.1) with _ | e
    · rw [hfind] at hsome; simp at hsome
    · simp only [Option.isNone_some]
      exact (decide_eq_false hc).symm

/-- With pairwise-distinct current paths, a stored entry counts as failed
exactly when some current file has its path but a differing digest. -/
theorem storedFailed_iff (fs : List FileEntry)
    (hnodup : (fs.map relStr).Nodup) (pr : String × String) :
    storedFailed fs pr = decide (∃ e ∈ fs, relStr e = pr.1 ∧
      hexDigest (hashBytes e.content) ≠ pr.2) := by
  unfold storedFailed
  rcases hfind : fileAt fs pr.1 with _ | e
  · unfold fileAt at hfind
    have hnone := List.find?_eq_none.mp hfind
    have : ¬ ∃ e ∈ fs, relStr e = pr.1 ∧ hexDigest (hashBytes e.content) ≠ pr.2 := by
      rintro ⟨e, he, heq, _⟩
      exact (hnone e he) (by simp [heq])
    simp [this]
  · unfold fileAt at hfind
    have hmem : e ∈ fs := List.mem_of_find?_eq_some hfind
    have heq : relStr e = pr.1 := by
      have := List.find?_some hfind
      simpa using this
    by_cases hh : hexDigest (hashBytes e.content) = pr.2
    · have : ¬ ∃ x ∈ fs, relStr x = pr.1 ∧ hexDigest (hashBytes x.content) ≠ pr.2 := by
        rintro ⟨x, hx, hxeq, hxne⟩
        have : x = e := List.inj_on_of_nodup_map hnodup hx hmem (by rw [hxeq, heq])
        rw [this] at hxne
        exact hxne hh
      simp [this, bne, hh]
    · have : ∃ x ∈ fs, relStr x = pr.1 ∧ hexDigest (hashBytes x.content) ≠ pr.2 :=
        ⟨e, hmem, heq, hh⟩
      simp [this, bne, hh]

/-- C2. `verify_manifest` classifies drift three ways: each stored entry
with no current file at its path counts toward `missing_files` (not
`files_failed`); each stored entry whose recomputed digest differs from
the stored one counts toward `files_failed`; each present `*.json` file
other than the manifest itself that is absent from the stored manifest
counts toward `extra_files`; and the overall result is true iff all
three counters are zero. -/
theorem verify_manifest_classification (stored : List (String × String))
    (fs : List FileEntry) (hnodup : (fs.map relStr).Nodup) :
    (verifyLoop stored fs).missing =
        (stored.filter (fun pr => decide (∀ e ∈ fs, relStr e ≠ pr.1))).length
    ∧ (verifyLoop stored fs).failed =
        (stored.filter (fun pr => decide (∃ e ∈ fs, relStr e = pr.1 ∧
          hexDigest (hashBytes e.content) ≠ pr.2))).length
    ∧ (extraFiles stored fs).length =
        fs.countP (fun e =>
          (!(stored.any (fun pr => pr.1 == relStr e))) &&
            (isJsonName (fileName e) && fileName e != "_manifest.json"))
    ∧ (verify_manifest stored fs = true ↔
        (verifyLoop stored fs).failed = 0 ∧ (verifyLoop stored fs).missing = 0 ∧
          (extraFiles stored fs).length = 0) := by
  refine ⟨?_, ?_, ?_, ?_⟩
  · rw [verifyLoop, verifyLoop_counts]
    simp only [Nat.zero_add]
    congr 1
    exact List.filter_congr (fun pr _ => storedMissing_iff fs pr)
  · rw [verifyLoop, verifyLoop_counts]
    simp only [Nat.zero_add]
    congr 1
    exact List.filter_congr (fun pr _ => storedFailed_iff fs hnodup pr)
  · unfold extraFiles currentJsonPaths
    have hn : ((fs.filter (fun e =>
        isJsonName (fileName e) && fileName e != "_manifest.json")).map relStr).Nodup :=
      ((List.filter_sublist fs).map relStr).nodup hnodup
    rw [List.dedup_eq_self.mpr hn, ← List.countP_eq_length_filter, List.countP_map,
      List.countP_filter]
    rfl
  · unfold verify_manifest
    simp only [Bool.and_eq_true, beq_iff_eq]
    tauto

/-- Witness data for C2: a stored manifest with one matching, one missing
and one mutated entry over a tree that also holds one extra JSON file. -/
def storedW : List (String × String) :=
  [("a.json", hexDigest (hashBytes [1])), ("gone.json", "deadbeef"),
   ("b.json", "0000")]

/-- Witness data for C2: the current artifact tree. -/
def fsW : List FileEntry :=
  [⟨["a.json"], [1]⟩, ⟨["b.json"], [2]⟩, ⟨["extra.json"], [3]⟩]

/-- Witness for C2 at the concrete drifted tree. -/
theorem verify_manifest_classification_witness :
    (fsW.map relStr).Nodup ∧
      ((verifyLoop storedW fsW).missing =
          (storedW.filter (fun pr => decide (∀ e ∈ fsW, relStr e ≠ pr.1))).length
      ∧ (verifyLoop storedW fsW).failed =
          (storedW.filter (fun pr => decide (∃ e ∈ fsW, relStr e = pr.1 ∧
            hexDigest (hashBytes e.content) ≠ pr.2))).length
      ∧ (extraFiles storedW fsW).length =
          fsW.countP (fun e =>
            (!(storedW.any (fun pr => pr.1 == relStr e))) &&
              (isJsonName (fileName e) && fileName e != "_manifest.json"))
      ∧ (verify_manifest storedW fsW = true ↔
          (verifyLoop storedW fsW).failed = 0 ∧ (verifyLoop storedW fsW).missing = 0 ∧
            (extraFiles storedW fsW).length = 0)) :=
  ⟨by decide, verify_manifest_classification storedW fsW (by decide)⟩

/-! ## Manifest generation (`ManifestGenerator.generate_manifest` /
`_analyze_file` / `_update_statistics`) -/

/-- The parse result of a device JSON document, as consumed by
`_analyze_file`: the `_metadata` fields it reads and the preset count of
each collection in `preset_collections`. -/
structure Doc where
  modifiedDate : Option String
  schemaVersion : Option String
  fileRevision : Option Int
  collections : List (String × Nat)
deriving DecidableEq, Repr

/-- A source file as seen by the manifest generator: path segments relative
to the artifact root, byte content (`none` when the file cannot be read,
making `open` raise), and the outcome of `json.load` plus metadata access
(`none` when any exception is raised on the analysis path). -/
structure SrcFile where
  relPath : List String
  content : Option (List Byte)
  parsed : Option Doc
deriving DecidableEq, Repr

/-- `Path.name` of a source file. -/
def srcName (f : SrcFile) : String := f.relPath.getLast? |>.getD ""

/-- The relative path string of a source file. -/
def srcRelStr (f : SrcFile) : String := String.intercalate "/" f.relPath

/-- The placeholder for `str(e)` of the exception recorded for a failing
file (its exact text is environment-dependent; only its presence
matters). -/
def analysisErrorMsg (f : SrcFile) : String := "error analyzing " ++ srcRelStr f

/-- A per-file record of the manifest (`file_checksums` value). -/
structure FileRecord where
  sha256 : String
  size_bytes : Nat
  last_modified : Option String
  schema_version : String
  file_revision : Int
  preset_count : Nat
  validation_status : String
  error : Option String
deriving DecidableEq, Repr

/-- `ManifestGenerator._analyze_file`: on a successful parse the record is
`passed` with the metadata fields (defaults `"unknown"` and `1`) and no
`error` key; on an analysis exception the record is `failed` with
`error = str(e)`, the digest still computed when the file is readable and
the `"error_calculating_hash"` / size-0 fallback otherwise. -/
def analyze_file (f : SrcFile) : FileRecord :=
  match f.content, f.parsed with
  | some c, some d =>
    { sha256 := hexDigest (hashBytes c), size_bytes := c.length,
      last_modified := d.modifiedDate,
      schema_version := d.schemaVersion.getD "unknown",
      file_revision := d.fileRevision.getD 1,
      preset_count := (d.collections.map Prod.snd).sum,
      validation_status := "passed", error := none }
  | some c, none =>
    { sha256 := hexDigest (hashBytes c), size_bytes := c.length,
      last_modified := none, schema_version := "unknown", file_revision := 0,
      preset_count := 0, validation_status := "failed",
      error := some (analysisErrorMsg f) }
  | none, _ =>
    { sha256 := "error_calculating_hash", size_bytes := 0,
      last_modified := none, schema_version := "unknown", file_revision := 0,
      preset_count := 0, validation_status := "failed",
      error := some (analysisErrorMsg f) }

/-- The manifest's `statistics.validation_summary` histogram. -/
structure ValidationSummary where
  passed : Nat
  failed : Nat
  pending : Nat
deriving DecidableEq, Repr

/-- `ManifestGenerator._update_statistics` on the validation summary:
`stats["validation_summary"][status] += 1`, indexing one of the three
keys initialised by `generate_manifest`. -/
def updateSummary (s : ValidationSummary) (status : String) : ValidationSummary :=
  if status = "passed" then { s with passed := s.passed + 1 }
  else if status = "failed" then { s with failed := s.failed + 1 }
  else { s with pending := s.pending + 1 }

/-- The generator's file enumeration over source files
(`rglob("*.json")` filtered by `f.name != "_manifest.json"`). -/
def generatorFiles (files : List SrcFile) : List SrcFile :=
  files.filter (fun f => isJsonName (srcName f) && srcName f != "_manifest.json")

/-- The `file_checksums` mapping produced by `generate_manifest`. -/
def generate_manifest_records (files : List SrcFile) :
    List (String × FileRecord) :=
  (generatorFiles files).map (fun f => (srcRelStr f, analyze_file f))

/-- The `validation_summary` accumulated by `generate_manifest`'s per-file
loop via `_update_statistics`. -/
def generate_manifest_summary (files : List SrcFile) : ValidationSummary :=
  (generatorFiles files).foldl
    (fun s f => updateSummary s (analyze_file f).validation_status) ⟨0, 0, 0⟩

/-- Every record produced by `_analyze_file` is `passed` or `failed`, and
carries an `error` field exactly when it is `failed`. -/
theorem analyze_file_status (f : SrcFile) :
    ((analyze_file f).validation_status = "passed" ∨
      (analyze_file f).validation_status = "failed")
    ∧ ((analyze_file f).error.isSome ↔
        (analyze_file f).validation_status = "failed") := by
  unfold analyze_file
  match f.content, f.parsed with
  | some c, some d => exact ⟨Or.inl rfl, by simp⟩
  | some c, none => exact ⟨Or.inr rfl, by simp⟩
  | none, _ => exact ⟨Or.inr rfl, by simp⟩

/-- The summary fold never touches `pending` because every status it sees
is `"passed"` or `"failed"`. -/
theorem summary_fold_pending (l : List SrcFile) :
    ∀ s : ValidationSummary,
      (l.foldl (fun s f => updateSummary s (analyze_file f).validation_status)
        s).pending = s.pending := by
  induction l with
  | nil => intro s; rfl
  | cons f rest ih =>
    intro s
    rw [List.foldl_cons, ih]
    rcases (analyze_file_status f).1 with h | h
    · rw [h]; rfl
    · rw [h]; rfl

/-- C9. In every manifest produced by `generate_manifest`, each per-file
record has `validation_status` equal to `"passed"` or `"failed"` (never
`"pending"`), the record carries an `error` field iff its status is
`"failed"`, and `statistics.validation_summary.pending` is always 0. -/
theorem generate_manifest_status_invariant (files : List SrcFile) :
    (generate_manifest_summary files).pending = 0
    ∧ ∀ pr ∈ generate_manifest_records files,
        (pr.2.validation_status = "passed" ∨ pr.2.validation_status = "failed")
        ∧ (pr.2.error.isSome ↔ pr.2.validation_status = "failed") := by
  constructor
  · exact summary_fold_pending (generatorFiles files) ⟨0, 0, 0⟩
  · intro pr hpr
    unfold generate_manifest_records at hpr
    obtain ⟨f, _, hf⟩ := List.mem_map.mp hpr
    rw [← hf]
    exact analyze_file_status f

/-! ## Validation errors and the Business-Rules validator
(`validation/base.py`, `validation/business.py`, pydantic models in
`models/preset.py`, `models/collection.py`, `models/device.py`) -/

/-- A `ValidationError` recorded by a validator (message and severity;
the associated path is omitted, it never affects control flow). -/
structure VError where
  message : String
  severity : String
deriving DecidableEq, Repr

/-- A preset of a device document (`PresetModel`'s fields that bear on
validation). -/
structure Preset where
  preset_id : String
  cc_0 : Option Int
  pgm : Int
  category : String
  preset_name : String
  sendmidi_command : String
  characters : List String
  user_ratings : List (String × Int)
deriving DecidableEq, Repr

/-- Collection metadata fields used by the business rules
(`CollectionMetadataModel.readonly/sync_status/parent_collections`). -/
structure CollMetadata where
  readonly : Bool
  sync_status : String
  parent_collections : List String
deriving DecidableEq, Repr

/-- A preset collection (`PresetCollectionModel`). -/
structure Collection where
  metadata : CollMetadata
  presets : List Preset
deriving DecidableEq, Repr

/-- A device document as consumed by the business-rules validator
(`DeviceModel.preset_collections`; a document with valid `_metadata` and
`device_info` blocks is assumed, those sub-models are elided). -/
structure Device where
  preset_collections : List (String × Collection)
deriving DecidableEq, Repr

/-- Python's `name.replace('_', '').replace('-', '').isalnum()` (ASCII). -/
def pyIsAlnumStripped (s : String) : Bool :=
  let stripped := s.toList.filter (fun c => c != '_' && c != '-')
  !stripped.isEmpty && stripped.all Char.isAlphanum

/-- The characters `PresetModel.validate_preset_name` rejects. -/
def presetNameInvalidChars : List Char :=
  ['<', '>', Char.ofNat 123, Char.ofNat 125, '\\', '/', ';', '"', Char.ofNat 39]

/-- The pydantic field constraints of `PresetModel` (`Field` bounds plus
the custom validators): notably `pgm: int = Field(..., ge=0, le=127)` and
`cc_0: Optional[int] = Field(None, ge=0, le=127)` are hard constraints
checked at model construction. -/
def presetBuildOk (p : Preset) : Bool :=
  decide (1 ≤ p.preset_id.length) && decide (p.preset_id.length ≤ 100)
  && pyIsAlnumStripped p.preset_id
  && (match p.cc_0 with
      | none => true
      | some v => decide (0 ≤ v) && decide (v ≤ 127))
  && decide (0 ≤ p.pgm) && decide (p.pgm ≤ 127)
  && decide (1 ≤ p.category.length) && decide (p.category.length ≤ 50)
  && decide (1 ≤ p.preset_name.length) && decide (p.preset_name.length ≤ 100)
  && !(p.preset_name.toList.any (fun c => presetNameInvalidChars.contains c))
  && "sendmidi".toList.isPrefixOf p.sendmidi_command.toList

/-- The pydantic constraints of `PresetCollectionModel` bearing on the
claims (`presets: Field(..., min_items=1, max_items=1000)` and the nested
preset constraints; `preset_metadata` consistency is elided). -/
def collectionBuildOk (c : Collection) : Bool :=
  decide (1 ≤ c.presets.length) && decide (c.presets.length ≤ 1000)
  && c.presets.all presetBuildOk

/-- The pydantic constraints of `DeviceModel` bearing on the claims:
at least one collection, valid collection names, valid collections. -/
def deviceBuildOk (d : Device) : Bool :=
  decide (1 ≤ d.preset_collections.length)
  && d.preset_collections.all (fun pc => pyIsAlnumStripped pc.1)
  && d.preset_collections.all (fun pc => collectionBuildOk pc.2)

/-- `DeviceModel(**data)`: raises `pydantic.ValidationError` when any
field constraint fails. -/
def deviceModelBuild (d : Device) : Except String Device :=
  if deviceBuildOk d then .ok d else .error "validation error for DeviceModel"

/-- All preset IDs across all collections of the file. -/
def allPresetIds (d : Device) : List String :=
  d.preset_collections.flatMap (fun pc => pc.2.presets.map (fun p => p.preset_id))

/-- The IDs occurring more than once, in first-occurrence order
(`Counter` preserves insertion order). -/
def duplicatePresetIds (d : Device) : List String :=
  (allPresetIds d).dedup.filter (fun i => decide (1 < (allPresetIds d).count i))

/-- `_validate_preset_id_uniqueness`: duplicates are one hard error naming
all of them. -/
def checkPresetIdUniqueness (d : Device) : Bool × List VError :=
  let dups := duplicatePresetIds d
  if dups.isEmpty then (true, [])
  else (false,
    [⟨"Duplicate preset IDs found: " ++ String.intercalate ", " dups, "error"⟩])

/-- The warnings `_validate_midi_ranges` records for one preset: cc_0
first, then pgm, each when outside [0, 127]. -/
def presetMidiWarnings (p : Preset) : List VError :=
  (match p.cc_0 with
   | none => []
   | some v =>
     if 0 ≤ v ∧ v ≤ 127 then []
     else [⟨"CC_0 value " ++ toString v ++ " out of MIDI range for preset " ++
       p.preset_id, "warning"⟩])
  ++ (if 0 ≤ p.pgm ∧ p.pgm ≤ 127 then []
      else [⟨"Program value " ++ toString p.pgm ++
        " out of MIDI range for preset " ++ p.preset_id, "warning"⟩])

/-- `_validate_midi_ranges`: records warnings only and always returns
`valid = True` (the local `valid` is never set to `False`). -/
def checkMidiRanges (d : Device) : Bool × List VError :=
  (true, d.preset_collections.flatMap (fun pc => pc.2.presets.flatMap presetMidiWarnings))

/-- The consistency issues `_validate_collection_consistency` collects:
unknown parent references and readonly collections whose sync status is
not `"synced"`. -/
def collectionIssues (d : Device) : List String :=
  d.preset_collections.flatMap (fun pc =>
    (pc.2.metadata.parent_collections.filter
        (fun parent => !(d.preset_collections.any (fun q => q.1 == parent)))).map
      (fun parent =>
        "Collection '" ++ pc.1 ++ "' references non-existent parent '" ++
          parent ++ "'")
    ++ (if pc.2.metadata.readonly && pc.2.metadata.sync_status != "synced" then
        ["Readonly collection '" ++ pc.1 ++ "' has sync status '" ++
          pc.2.metadata.sync_status ++ "'"]
      else []))

/-- `_validate_collection_consistency`: every collected issue is recorded
with the default severity `"error"`; the check fails iff any issue
exists. -/
def checkCollectionConsistency (d : Device) : Bool × List VError :=
  let issues := collectionIssues d
  if issues.isEmpty then (true, [])
  else (false, issues.map (fun m => ⟨m, "error"⟩))

/-- The naming issues `_validate_naming_conventions` collects: presets
whose name is longer than 50 characters. -/
def namingIssues (d : Device) : List String :=
  d.preset_collections.flatMap (fun pc =>
    (pc.2.presets.filter (fun p => decide (50 < p.preset_name.length))).map
      (fun p => "Preset '" ++ p.preset_id ++ "' has very long name: " ++
        p.preset_name))

/-- `_validate_naming_conventions`: returns `len(naming_issues) == 0` but
records no `ValidationError` at all. -/
def checkNamingConventions (d : Device) : Bool × List VError :=
  ((namingIssues d).isEmpty, [])

/-- `_validate_data_integrity`: logs statistics only, records nothing and
always returns `True`. -/
def checkDataIntegrity (_ : Device) : Bool × List VError := (true, [])

/-- `BusinessRulesValidator.validate` on a file: `none` stands for a file
whose JSON cannot be loaded; otherwise `DeviceModel(**data)` is built
(any exception, including a pydantic `ValidationError`, is caught, one
error-severity entry is recorded and `False` is returned), then the five
checks run unconditionally and the result is their conjunction with all
recorded entries concatenated in execution order. -/
def business_validate (input : Option Device) : Bool × List VError :=
  match input with
  | none =>
    (false, [⟨"Error in business rules validation: json parse error", "error"⟩])
  | some data =>
    match deviceModelBuild data with
    | .error e => (false, [⟨"Error in business rules validation: " ++ e, "error"⟩])
    | .ok device =>
      ((checkPresetIdUniqueness device).1 && (checkMidiRanges device).1 &&
        (checkCollectionConsistency device).1 && (checkNamingConventions device).1 &&
        (checkDataIntegrity device).1,
       (checkPresetIdUniqueness device).2 ++ (checkMidiRanges device).2 ++
        (checkCollectionConsistency device).2 ++ (checkNamingConventions device).2 ++
        (checkDataIntegrity device).2)

/-- An otherwise-valid preset whose `pgm` is 200 (outside [0, 127]). -/
def presetPgm200 : Preset :=
  { preset_id := "p1", cc_0 := none, pgm := 200, category := "lead",
    preset_name := "Lead One", sendmidi_command := "sendmidi dev X pc 200",
    characters := [], user_ratings := [] }

/-- Non-readonly, synced, parentless collection metadata. -/
def collMeta0 : CollMetadata := ⟨false, "synced", []⟩

/-- An otherwise-valid device whose single preset has `pgm = 200`. -/
def devicePgm200 : Device := ⟨[("main", ⟨collMeta0, [presetPgm200]⟩)]⟩

/-- The same device with `pgm = 1` instead. -/
def devicePgmOk : Device :=
  ⟨[("main", ⟨collMeta0, [{ presetPgm200 with pgm := 1 }]⟩)]⟩

/-- C3. On an otherwise-valid device document whose preset has
`pgm = 200`, `DeviceModel` construction fails the pydantic field
constraint `pgm: Field(..., ge=0, le=127)`, so
`BusinessRulesValidator.validate` returns `False` with one error-severity
entry — not `True` with one warning as the claim states; the warning-only
path of `_validate_midi_ranges` (and the log-only `@validator('pgm')`)
is unreachable for out-of-range `pgm`.  The same document with `pgm = 1`
validates cleanly, showing it is otherwise valid. -/
theorem business_validate_pgm_out_of_range :
    business_validate (some devicePgm200) =
      (false,
        [⟨"Error in business rules validation: validation error for DeviceModel",
          "error"⟩])
    ∧ business_validate (some devicePgmOk) = (true, []) := by
  refine ⟨by decide, by decide⟩

/-- A preset whose name is longer than 50 characters and otherwise
valid. -/
def longNamePreset : Preset :=
  { preset_id := "p2", cc_0 := none, pgm := 1, category := "pad",
    preset_name := "A very long preset name that certainly exceeds the fifty character limit",
    sendmidi_command := "sendmidi dev X pc 1", characters := [], user_ratings := [] }

/-- A device whose single preset has a very long name. -/
def deviceLongName : Device := ⟨[("main", ⟨collMeta0, [longNamePreset]⟩)]⟩

/-- C6 counterexample. On a device whose preset name exceeds 50
characters, `BusinessRulesValidator.validate` returns `False` while its
recorded error list is empty — no entry of severity `"error"` (or any
severity) exists, refuting "validate() returns true iff no accumulated
entry has severity error". -/
theorem business_validate_false_with_no_errors :
    business_validate (some deviceLongName) = (false, []) := by decide

/-- Every midi-range warning entry has severity `"warning"`. -/
theorem presetMidiWarnings_severity (p : Preset) :
    ∀ e ∈ presetMidiWarnings p, e.severity = "warning" := by
  intro e he
  unfold presetMidiWarnings at he
  rcases List.mem_append.mp he with h | h
  · split at h
    · simp at h
    · split at h
      · simp at h
      · rcases List.mem_singleton.mp h with rfl; rfl
  · split at h
    · simp at h
    · rcases List.mem_singleton.mp h with rfl; rfl

/-- C6 amended. If `BusinessRulesValidator.validate` returns true then no
accumulated `ValidationError` has severity `"error"` (every entry is a
midi-range warning); the converse direction of the claimed iff fails,
since the naming-conventions check can return false without recording any
entry. -/
theorem business_validate_true_no_error_entries (input : Option Device)
    (h : (business_validate input).1 = true) :
    ∀ e ∈ (business_validate input).2, e.severity ≠ "error" := by
  match input with
  | none => exact absurd h (by simp [business_validate])
  | some d =>
    simp only [business_validate] at h ⊢
    match hb : deviceModelBuild d with
    | .error s => rw [hb] at h; simp at h
    | .ok dev =>
      rw [hb] at h
      dsimp only at h ⊢
      simp only [Bool.and_eq_true] at h
      obtain ⟨⟨⟨⟨h1, _⟩, h3⟩, _⟩, _⟩ := h
      have hr1 : (checkPresetIdUniqueness dev).2 = [] := by
        unfold checkPresetIdUniqueness at h1 ⊢
        by_cases hd : (duplicatePresetIds dev).isEmpty
        · rw [if_pos hd]
        · rw [if_neg hd] at h1; simp at h1
      have hr3 : (checkCollectionConsistency dev).2 = [] := by
        unfold checkCollectionConsistency at h3 ⊢
        by_cases hd : (collectionIssues dev).isEmpty
        · rw [if_pos hd]
        · rw [if_neg hd] at h3; simp at h3
      intro e he
      simp only [hr1, hr3, checkNamingConventions, checkDataIntegrity,
        List.append_nil, List.nil_append, checkMidiRanges, List.mem_flatMap,
        Prod.exists] at he
      obtain ⟨nm, coll, _, p, _, hp⟩ := he
      rw [presetMidiWarnings_severity p e hp]
      decide

/-- Witness for C6 amended at the clean device. -/
theorem business_validate_true_no_error_entries_witness :
    (business_validate (some devicePgmOk)).1 = true ∧
      ∀ e ∈ (business_validate (some devicePgmOk)).2, e.severity ≠ "error" :=
  ⟨by decide, business_validate_true_no_error_entries (some devicePgmOk) (by decide)⟩

/-! ## Structure validator (`validation/structure.py`) -/

/-- The error recorded when a file path is not rooted at `devices`. -/
def mustBeInDevicesError : VError := ⟨"File must be in devices/ folder", "error"⟩

/-- `pathlib.PurePath.suffix` of a file name: the final `"." + ext` when
the last dot is neither the first nor past the last character, else
`""`. -/
def pathSuffix (name : String) : String :=
  let cs := name.toList
  if cs.contains '.' then
    let after := (cs.reverse.takeWhile (fun c => c != '.')).reverse
    if 0 < cs.length - after.length - 1 ∧ after ≠ [] then
      String.mk ('.' :: after)
    else ""
  else ""

/-- ASCII lowering, as in `suffix.lower()`. -/
def strLower (s : String) : String := String.mk (s.toList.map Char.toLower)

/-- `StructureValidator._validate_file_path` (the branch
`StructureValidator.validate` takes for an existing file), over
`Path.parts`; an absolute path has `"/"` as its first part.  The checks
run in source order, returning on the first failure: rooted at
`devices` with at least two parts, depth within `max_depth`, every
intermediate segment a valid folder name, `.json` extension. -/
def structure_validate_file (maxDepth : Nat) (parts : List String) :
    Bool × List VError :=
  if parts.length < 2 ∨ parts.head? ≠ some "devices" then
    (false, [mustBeInDevicesError])
  else if maxDepth < parts.length - 2 then
    (false, [⟨"File exceeds maximum folder depth of " ++ toString maxDepth ++
      " levels", "error"⟩])
  else
    match ((parts.drop 1).dropLast).find? (fun part => !pyIsAlnumStripped part) with
    | some part =>
      (false, [⟨"Invalid folder name '" ++ part ++
        "' (must be alphanumeric with underscore/hyphen)", "error"⟩])
    | none =>
      if strLower (pathSuffix (parts.getLast?.getD "")) != ".json" then
        (false, [⟨"Only .json files are allowed", "error"⟩])
      else (true, [])

/-- C10. For every existing file path whose first path component is not
the literal segment `devices` — in particular every absolute path, whose
first part is `"/"` — `StructureValidator.validate` returns false and
records one error-severity entry; contrapositively, file structure
validation can only pass for paths with `devices` as their first
segment. -/
theorem structure_validate_requires_devices_root (maxDepth : Nat)
    (parts : List String) (h : parts.head? ≠ some "devices") :
    structure_validate_file maxDepth parts = (false, [mustBeInDevicesError]) := by
  unfold structure_validate_file
  rw [if_pos (Or.inr h)]

/-- Witness for C10 at an absolute path. -/
theorem structure_validate_requires_devices_root_witness :
    (["/", "repo", "devices", "x.json"] : List String).head? ≠ some "devices" ∧
      structure_validate_file 4 ["/", "repo", "devices", "x.json"] =
        (false, [mustBeInDevicesError]) :=
  ⟨by decide,
    structure_validate_requires_devices_root 4 ["/", "repo", "devices", "x.json"]
      (by decide)⟩

/-! ## Validation CLI (`cli/validate.py`) -/

/-- What one validator reports for one file: the boolean result of
`validate(file_path)` and the entries left in its error list (read back
through `get_errors()` / `get_warnings()`). -/
structure ValidatorOutcome where
  valid : Bool
  errors : List VError
deriving DecidableEq, Repr

/-- `validator.get_warnings()`. -/
def outcome_warnings (o : ValidatorOutcome) : List VError :=
  o.errors.filter (fun e => e.severity == "warning")

/-- A file is valid iff every validator returned true
(`if not validator.validate(file_path): file_valid = False`). -/
def fileValid (outcomes : List ValidatorOutcome) : Bool :=
  outcomes.all (fun o => o.valid)

/-- `ValidationCLI.validate_files`: overall success iff every file was
valid; warnings are only counted and printed, never consulted. -/
def validate_files (files : List (List ValidatorOutcome)) : Bool :=
  files.all fileValid

/-- The CLI configuration; `--strict` sets `strict_mode`. -/
structure CLIConfig where
  strict_mode : Bool
deriving DecidableEq, Repr

/-- `ValidationCLI.run`: `--strict` sets `config.strict_mode`, then the
exit code is 0 if `validate_files` succeeded and 1 otherwise;
`config.strict_mode` is never read afterwards. -/
def cli_run (strict : Bool) (files : List (List ValidatorOutcome)) :
    Nat × CLIConfig :=
  let config : CLIConfig := ⟨strict⟩
  (if validate_files files then 0 else 1, config)

/-- A validator outcome that is valid yet carries one warning. -/
def warnOutcome : ValidatorOutcome :=
  ⟨true, [⟨"CC_0 value 128 out of MIDI range for preset p1", "warning"⟩]⟩

/-- C7. The exit code is 0 iff every file is valid — for every value of
the strict flag — and the strict flag is a no-op for the exit code: with
`--strict`, a file that is valid but produced one warning still exits 0,
where the claim (and the flag's own help text, "Treat warnings as
errors") requires exit code 1. -/
theorem cli_strict_flag_ignored :
    (cli_run true [[warnOutcome]]).1 = 0
    ∧ fileValid [warnOutcome] = true
    ∧ (outcome_warnings warnOutcome).length = 1
    ∧ (∀ strict files, (cli_run strict files).1 = (cli_run false files).1)
    ∧ ∀ strict files,
        ((cli_run strict files).1 = 0 ↔ validate_files files = true) := by
  refine ⟨by decide, by decide, by decide, fun strict files => rfl, ?_⟩
  intro strict files
  unfold cli_run
  by_cases hv : validate_files files
  · simp [hv]
  · simp [hv]

end MidiPresets
